import Mathlib

/-!
# Stemcell lifecycle manager (`deployment/stemcell/manager.go`)

A shallow embedding of `manager.FindCurrent`, `manager.Upload`, `manager.FindUnused` and
`manager.DeleteUnused`.

The manager is written against three Go interfaces (`StemcellRepo`, `Cloud`, `Stage`).  The
interfaces are stateful objects; here each one is a table of functions over an explicit state, and
the manager threads a `World` (store state, cloud state, and a journal of every call it makes on a
collaborator) through its operations.  The journal plays the role of the `...ArgsForCall` slices of
the counterfeiter doubles of this repository: it is appended to at every call and never read by the
code.
-/

set_option autoImplicit false
set_option linter.dupNamespace false

namespace Stemcell

/-! ## Errors -/

/-- Modelled from the spec: Go `error` values as the manager sees them.  An error is either an
ordinary error carrying its message, or the distinguished "skip this step" signal of the stage
reporter (`bmeventlog.SkippedStepError`), which is a different type from every other error. -/
inductive Error where
  | failure (msg : String)
  | skipped (msg : String)
  deriving DecidableEq, Repr, Inhabited

/-- Modelled from the spec: the `Error()` method, the message of an error. -/
def Error.Error : Error → String
  | .failure msg => msg
  | .skipped msg => msg

/-- Modelled from the spec: `bosherr.WrapError(cause, msg)`: a new ordinary error whose message is
the context followed by the message of the cause. -/
def WrapError (cause : Error) (msg : String) : Error :=
  .failure (msg ++ ": " ++ cause.Error)

/-- Modelled from the spec: `bmeventlog.NewSkippedStepError(msg)`, the skip signal. -/
def NewSkippedStepError (msg : String) : Error :=
  .skipped msg

/-! ## Data model -/

/-- Modelled from the spec: `bmconfig.StemcellRecord`, the persisted tuple
`{id, name, version, cloud_id}`. -/
structure StemcellRecord where
  ID : String
  Name : String
  Version : String
  CID : String
  deriving DecidableEq, Repr, Inhabited

/-- Modelled from the spec: cloud properties, a map from keys to values. -/
abbrev CloudProperties := List (String × String)

/-- Modelled from the spec: the manifest of an extracted stemcell.  `CloudProperties` holds what the
call `manifest.CloudProperties()` returns, a pair of the map and an error. -/
structure Manifest where
  Name : String
  Version : String
  ImagePath : String
  CloudProperties : CloudProperties × Option Error
  deriving DecidableEq, Repr

/-- Modelled from the spec: the extracted stemcell, a read-only input; `String` is what `%s`
prints for it. -/
structure ExtractedStemcell where
  Manifest : Manifest
  String : String
  deriving DecidableEq, Repr

/-! ## Collaborator interfaces -/

/-- Modelled from the spec: the `bmconfig.StemcellRepo` interface over a store state `S`.  The
three reads observe the store state (a read that fails does so because of the state it is asked
in); `Save` and `Delete` return the new store state.  A triple `(record, found, err)` is the Go
return value as is. -/
structure StemcellRepo (S : Type) where
  FindCurrent : S → StemcellRecord × Bool × Option Error
  Find : String → String → S → StemcellRecord × Bool × Option Error
  Save : String → String → String → S → (StemcellRecord × Option Error) × S
  All : S → List StemcellRecord × Option Error
  Delete : StemcellRecord → S → Option Error × S

/-- Modelled from the spec: the `bmcloud.Cloud` interface over a cloud state `C`. -/
structure Cloud (C : Type) where
  CreateStemcell : CloudProperties → String → C → (String × Option Error) × C
  DeleteStemcell : String → C → Option Error × C

/-- Every call the manager or a cloud stemcell makes on a collaborator, and every report of the
stage reporter. -/
inductive Event where
  | repoFindCurrent
  | repoFind (name version : String)
  | repoSave (name version cid : String)
  | repoAll
  | repoDelete (record : StemcellRecord)
  | cloudCreateStemcell (cloudProperties : CloudProperties) (imagePath : String)
  | cloudDeleteStemcell (cid : String)
  | stemcellDelete (record : StemcellRecord)
  | stageStarted (stage : String)
  | stageFinished (stage : String)
  | stepStarted (stage step : String)
  | stepFinished (stage step : String)
  | stepSkipped (stage step msg : String)
  | stepFailed (stage step msg : String)
  deriving DecidableEq, Repr

/-- The state the manager runs in: the state of the record store, the state of the cloud, and the
journal of calls made so far. -/
structure World (S C : Type) where
  repo : S
  cloud : C
  log : List Event
  deriving DecidableEq, Repr

variable {S C : Type}

/-- Append one entry to the journal. -/
def World.emit (w : World S C) (e : Event) : World S C :=
  { w with log := w.log ++ [e] }

/-! ## Cloud stemcell -/

/-- Modelled from the spec: the Cloud Stemcell entity (`cloud_stemcell.go`, not among the sources),
one record together with references to the record store and the cloud driver. -/
structure CloudStemcell (S C : Type) where
  record : StemcellRecord
  repo : StemcellRepo S
  cloud : Cloud C

/-- Modelled from the spec: `NewCloudStemcell(record, repo, cloud)`. -/
def NewCloudStemcell (stemcellRecord : StemcellRecord) (repo : StemcellRepo S) (cloud : Cloud C) :
    CloudStemcell S C :=
  { record := stemcellRecord, repo := repo, cloud := cloud }

/-- Modelled from the spec: `CID()` returns the stored cloud_id; a pure accessor. -/
def CloudStemcell.CID (s : CloudStemcell S C) : String :=
  s.record.CID

/-- Modelled from the spec: `Delete()` deletes the remote resource through the cloud driver using
the cloud_id and then removes the record from the record store; when the remote delete fails the
local record is left intact.  The error of the failing collaborator is returned. -/
def CloudStemcell.Delete (s : CloudStemcell S C) (w : World S C) : Option Error × World S C :=
  let w := w.emit (.stemcellDelete s.record)
  let (err, cloud) := s.cloud.DeleteStemcell s.CID w.cloud
  let w := { w with cloud := cloud }.emit (.cloudDeleteStemcell s.CID)
  match err with
  | some e => (some e, w)
  | none =>
    let (err, repo) := s.repo.Delete s.record w.repo
    let w := { w with repo := repo }.emit (.repoDelete s.record)
    (err, w)

/-! ## Stage reporter -/

/-- Modelled from the spec: a stage of the stage reporter, known by its name. -/
structure Stage where
  name : String
  deriving DecidableEq, Repr

/-- Modelled from the spec: the event logger, the factory of stages. -/
structure EventLogger where
  deriving DecidableEq, Repr

/-- Modelled from the spec: `NewStage(name)`. -/
def EventLogger.NewStage (_ : EventLogger) (name : String) : Stage :=
  { name := name }

/-- Modelled from the spec: `stage.Start()`. -/
def Stage.Start (stage : Stage) (w : World S C) : World S C :=
  w.emit (.stageStarted stage.name)

/-- Modelled from the spec: `stage.Finish()`. -/
def Stage.Finish (stage : Stage) (w : World S C) : World S C :=
  w.emit (.stageFinished stage.name)

/-- Modelled from the spec: `stage.PerformStep(name, fn)`.  The step is reported as started, `fn`
runs, and the step is reported as finished, skipped or failed.  The skip signal is the one failure
that is swallowed: the step is recorded as skipped and no error is returned.  The second component
`κ` of the result of `fn` carries the variables of the enclosing function that the closure
assigns. -/
def Stage.PerformStep {κ : Type} (stage : Stage) (stepName : String)
    (closure : World S C → (Option Error × κ) × World S C) (w : World S C) :
    (Option Error × κ) × World S C :=
  let w := w.emit (.stepStarted stage.name stepName)
  let ((err, k), w) := closure w
  match err with
  | none => ((none, k), w.emit (.stepFinished stage.name stepName))
  | some (.skipped msg) => ((none, k), w.emit (.stepSkipped stage.name stepName msg))
  | some (.failure msg) => ((some (.failure msg), k), w.emit (.stepFailed stage.name stepName msg))

/-! ## The manager -/

/-- The `manager` struct. -/
structure manager (S C : Type) where
  repo : StemcellRepo S
  cloud : Cloud C
  eventLogger : EventLogger

/-- `NewManager`. -/
def NewManager (repo : StemcellRepo S) (cloud : Cloud C) (eventLogger : EventLogger) :
    manager S C :=
  { repo := repo, cloud := cloud, eventLogger := eventLogger }

/-- The call `m.repo.FindCurrent()`, journalled. -/
def manager.repoFindCurrent (m : manager S C) (w : World S C) :
    (StemcellRecord × Bool × Option Error) × World S C :=
  (m.repo.FindCurrent w.repo, w.emit .repoFindCurrent)

/-- The call `m.repo.Find(name, version)`, journalled. -/
def manager.repoFind (m : manager S C) (name version : String) (w : World S C) :
    (StemcellRecord × Bool × Option Error) × World S C :=
  (m.repo.Find name version w.repo, w.emit (.repoFind name version))

/-- The call `m.repo.All()`, journalled. -/
def manager.repoAll (m : manager S C) (w : World S C) :
    (List StemcellRecord × Option Error) × World S C :=
  (m.repo.All w.repo, w.emit .repoAll)

/-- The call `m.repo.Save(name, version, cid)`, journalled. -/
def manager.repoSave (m : manager S C) (name version cid : String) (w : World S C) :
    (StemcellRecord × Option Error) × World S C :=
  let (res, repo) := m.repo.Save name version cid w.repo
  (res, { w with repo := repo }.emit (.repoSave name version cid))

/-- The call `m.cloud.CreateStemcell(cloudProperties, imagePath)`, journalled. -/
def manager.cloudCreateStemcell (m : manager S C) (cloudProperties : CloudProperties)
    (imagePath : String) (w : World S C) : (String × Option Error) × World S C :=
  let (res, cloud) := m.cloud.CreateStemcell cloudProperties imagePath w.cloud
  (res, { w with cloud := cloud }.emit (.cloudCreateStemcell cloudProperties imagePath))

/-- `manager.FindCurrent` (manager.go, lines 34-47). -/
def manager.FindCurrent (m : manager S C) (w : World S C) :
    (Option (CloudStemcell S C) × Bool × Option Error) × World S C :=
  let ((stemcellRecord, found, err), w) := m.repoFindCurrent w
  match err with
  | some e => ((none, false, some (WrapError e "Reading stemcell record")), w)
  | none =>
    if !found then
      ((none, false, none), w)
    else
      let cloudStemcell := NewCloudStemcell stemcellRecord m.repo m.cloud
      ((some cloudStemcell, true, err), w)

/-- The closure that `manager.Upload` hands to `PerformStep` (manager.go, lines 56-86).  It
returns its error together with the value it leaves in the captured result variable
`cloudStemcell` (`none` is the nil the variable starts with). -/
def manager.uploadStep (m : manager S C) (extractedStemcell : ExtractedStemcell)
    (w : World S C) : (Option Error × Option (CloudStemcell S C)) × World S C :=
  let manifest := extractedStemcell.Manifest
  let ((foundStemcellRecord, found, err), w) := m.repoFind manifest.Name manifest.Version w
  match err with
  | some e => ((some (WrapError e "Finding existing stemcell record in repo"), none), w)
  | none =>
    if found then
      ((some (NewSkippedStepError "Stemcell already uploaded"),
        some (NewCloudStemcell foundStemcellRecord m.repo m.cloud)), w)
    else
      let (cloudProperties, err) := manifest.CloudProperties
      match err with
      | some e =>
        ((some (WrapError e "Getting cloud properties from stemcell manifest"), none), w)
      | none =>
        let ((cid, err), w) := m.cloudCreateStemcell cloudProperties manifest.ImagePath w
        match err with
        | some e =>
          ((some (WrapError e
            ("creating stemcell (" ++ manifest.Name ++ " " ++ manifest.Version ++ ")")), none), w)
        | none =>
          let ((stemcellRecord, err), w) := m.repoSave manifest.Name manifest.Version cid w
          match err with
          | some e =>
            ((some (WrapError e
              ("saving stemcell record in repo (cid=" ++ cid ++ ", stemcell=" ++
                extractedStemcell.String ++ ")")), none), w)
          | none =>
            ((none, some (NewCloudStemcell stemcellRecord m.repo m.cloud)), w)

/-- `manager.Upload` (manager.go, lines 52-93). -/
def manager.Upload (m : manager S C) (extractedStemcell : ExtractedStemcell) (w : World S C) :
    (Option (CloudStemcell S C) × Option Error) × World S C :=
  let eventLoggerStage := m.eventLogger.NewStage "uploading stemcell"
  let w := eventLoggerStage.Start w
  let ((err, cloudStemcell), w) :=
    eventLoggerStage.PerformStep "Uploading" (m.uploadStep extractedStemcell) w
  match err with
  | some e => ((cloudStemcell, some e), w)
  | none =>
    let w := eventLoggerStage.Finish w
    ((cloudStemcell, none), w)

/-- `manager.FindUnused` (manager.go, lines 95-116). -/
def manager.FindUnused (m : manager S C) (w : World S C) :
    (List (CloudStemcell S C) × Option Error) × World S C :=
  let unusedStemcells : List (CloudStemcell S C) := []
  let ((stemcellRecords, err), w) := m.repoAll w
  match err with
  | some e => ((unusedStemcells, some (WrapError e "Getting all stemcell records")), w)
  | none =>
    let ((currentStemcellRecord, found, err), w) := m.repoFindCurrent w
    match err with
    | some e => ((unusedStemcells, some (WrapError e "Finding current disk record")), w)
    | none =>
      let unusedStemcells := stemcellRecords.foldl (fun unusedStemcells stemcellRecord =>
        if !found || stemcellRecord.ID != currentStemcellRecord.ID then
          let stemcell := NewCloudStemcell stemcellRecord m.repo m.cloud
          unusedStemcells ++ [stemcell]
        else
          unusedStemcells) unusedStemcells
      ((unusedStemcells, none), w)

/-- The closure that `manager.DeleteUnused` hands to `PerformStep` for one stemcell
(manager.go, lines 126-131). -/
def deleteStep (stemcell : CloudStemcell S C) (w : World S C) :
    (Option Error × Unit) × World S C :=
  let (err, w) := stemcell.Delete w
  match err with
  | some e => ((some (WrapError e ("Deleting unused stemcell '" ++ stemcell.CID ++ "'")), ()), w)
  | none => ((none, ()), w)

/-- The loop of `manager.DeleteUnused` (manager.go, lines 124-137). -/
def deleteLoop (eventLoggerStage : Stage) :
    List (CloudStemcell S C) → World S C → Option Error × World S C
  | [], w => (none, w)
  | stemcell :: rest, w =>
    let stepName := "Deleting unused stemcell '" ++ stemcell.CID ++ "'"
    let ((err, _), w) := eventLoggerStage.PerformStep stepName (deleteStep stemcell) w
    match err with
    | some e => (some e, w)
    | none => deleteLoop eventLoggerStage rest w

/-- `manager.DeleteUnused` (manager.go, lines 118-138). -/
def manager.DeleteUnused (m : manager S C) (eventLoggerStage : Stage) (w : World S C) :
    Option Error × World S C :=
  let ((stemcells, err), w) := m.FindUnused w
  match err with
  | some e => (some (WrapError e "Finding unused stemcells"), w)
  | none => deleteLoop eventLoggerStage stemcells w

/-! ## Reading the journal -/

/-- The records on which `CloudStemcell.Delete` was invoked, in order. -/
def deletedRecords (evs : List Event) : List StemcellRecord :=
  evs.filterMap fun
    | .stemcellDelete r => some r
    | _ => none

/-- The names of the steps performed, in order. -/
def stepsStarted (evs : List Event) : List String :=
  evs.filterMap fun
    | .stepStarted _ step => some step
    | _ => none

/-- The arguments of the calls of the cloud driver's `CreateStemcell`, in order. -/
def createCalls (evs : List Event) : List (CloudProperties × String) :=
  evs.filterMap fun
    | .cloudCreateStemcell p i => some (p, i)
    | _ => none

/-- The arguments of the calls of the store's `Save`, in order. -/
def saveCalls (evs : List Event) : List (String × String × String) :=
  evs.filterMap fun
    | .repoSave n v c => some (n, v, c)
    | _ => none

/-- The steps that ended with the skip signal, in order. -/
def stepsSkipped (evs : List Event) : List String :=
  evs.filterMap fun
    | .stepSkipped _ step _ => some step
    | _ => none

/-- The number of records of an enumeration that carry the identity `(name, version)`. -/
def recordsFor (name version : String) (records : List StemcellRecord) : Nat :=
  (records.filter fun r => r.Name == name && r.Version == version).length

/-- Two worlds in which the store and the cloud are in the same state. -/
def sameState (w w' : World S C) : Prop :=
  w.repo = w'.repo ∧ w.cloud = w'.cloud

/-- The world after `Delete` has been invoked on each stemcell of a list, in order. -/
def afterDeletes : List (CloudStemcell S C) → World S C → World S C
  | [], w => w
  | s :: rest, w => afterDeletes rest (s.Delete w).2

/-- Invoking `Delete` on each stemcell of a list, in order and starting from `w`, succeeds every
time. -/
def DeletesSucceed : List (CloudStemcell S C) → World S C → Prop
  | [], _ => True
  | s :: rest, w => (s.Delete w).1 = none ∧ DeletesSucceed rest (s.Delete w).2

/-- The name of the step `DeleteUnused` opens for a stemcell. -/
def deleteStepName (s : CloudStemcell S C) : String :=
  "Deleting unused stemcell '" ++ s.CID ++ "'"

/-- A run of journal entries that holds one `Delete` invocation and one step per stemcell of `ss`,
in order, and no call of `CreateStemcell` or `Save`. -/
def deleteTrace (evs : List Event) (ss : List (CloudStemcell S C)) : Prop :=
  deletedRecords evs = ss.map (·.record) ∧ stepsStarted evs = ss.map deleteStepName
    ∧ saveCalls evs = [] ∧ createCalls evs = []

/-! ## In-memory doubles for the concrete scenarios -/

/-- The state of an in-memory record store: its records in enumeration order, the id of the record
marked current, and the errors its `All` and `FindCurrent` reads are set up to fail with. -/
structure FakeRepoState where
  records : List StemcellRecord
  current : Option String
  allErr : Option Error
  findCurrentErr : Option Error
  deriving DecidableEq, Repr

/-- An in-memory record store. -/
def fakeRepo : StemcellRepo FakeRepoState where
  FindCurrent s :=
    match s.findCurrentErr with
    | some e => (default, false, some e)
    | none =>
      match s.current with
      | none => (default, false, none)
      | some id =>
        match s.records.find? (fun r => r.ID == id) with
        | some r => (r, true, none)
        | none => (default, false, none)
  Find name version s :=
    match s.records.find? (fun r => r.Name == name && r.Version == version) with
    | some r => (r, true, none)
    | none => (default, false, none)
  Save name version cid s :=
    let r : StemcellRecord :=
      { ID := "id-" ++ name ++ "-" ++ version, Name := name, Version := version, CID := cid }
    ((r, none), { s with records := s.records ++ [r] })
  All s :=
    match s.allErr with
    | some e => ([], some e)
    | none => (s.records, none)
  Delete record s := (none, { s with records := s.records.filter (fun r => r.ID != record.ID) })

/-- The state of a stubbed cloud driver: what `CreateStemcell` is set up to return, the cloud ids
whose delete fails, and the cloud ids deleted so far. -/
structure FakeCloudState where
  createStemcellReturns : String × Option Error
  deleteFails : List String
  deleted : List String
  deriving DecidableEq, Repr

/-- A stubbed cloud driver. -/
def fakeCloud : Cloud FakeCloudState where
  CreateStemcell _ _ c := (c.createStemcellReturns, c)
  DeleteStemcell cid c :=
    if cid ∈ c.deleteFails then
      (some (.failure "stemcell delete failed"), c)
    else
      (none, { c with deleted := c.deleted ++ [cid] })

/-- An in-memory record store whose `Save` persists the record for the identity and the cloud id
it is given and reports no error, but hands back the zero record instead of the persisted one. -/
def forgetfulRepo : StemcellRepo FakeRepoState :=
  { fakeRepo with
    Save := fun name version cid s =>
      ((default, none),
        { s with records := s.records ++
            [{ ID := "id-" ++ name ++ "-" ++ version, Name := name, Version := version,
               CID := cid }] }) }

/-- A manager over the store that hands back the zero record and the stubbed cloud driver. -/
def forgetfulManager : manager FakeRepoState FakeCloudState :=
  NewManager forgetfulRepo fakeCloud {}

/-- A manager over the in-memory doubles. -/
def fakeManager : manager FakeRepoState FakeCloudState :=
  NewManager fakeRepo fakeCloud {}

/-- Three stored records and a fourth one used as the current record. -/
def recA : StemcellRecord := { ID := "a", Name := "ubuntu", Version := "1", CID := "cid-a" }

/-- Second record. -/
def recB : StemcellRecord := { ID := "b", Name := "ubuntu", Version := "2", CID := "cid-b" }

/-- Third record. -/
def recC : StemcellRecord := { ID := "c", Name := "ubuntu", Version := "3", CID := "cid-c" }

/-- The record marked current in the scenarios that have one. -/
def recCur : StemcellRecord := { ID := "cur", Name := "ubuntu", Version := "4", CID := "cid-cur" }

/-- A cloud whose create returns `cid-1` and in which every delete succeeds. -/
def cloudOk : FakeCloudState :=
  { createStemcellReturns := ("cid-1", none), deleteFails := [], deleted := [] }

/-- A store holding `recA`, `recCur`, `recB` with `recCur` marked current. -/
def worldWithCurrent : World FakeRepoState FakeCloudState :=
  { repo := { records := [recA, recCur, recB], current := some "cur", allErr := none,
              findCurrentErr := none },
    cloud := cloudOk, log := [] }

/-- A store holding `recA`, `recB`, `recC` with nothing marked current. -/
def worldNoCurrent : World FakeRepoState FakeCloudState :=
  { repo := { records := [recA, recB, recC], current := none, allErr := none,
              findCurrentErr := none },
    cloud := cloudOk, log := [] }

/-- Three unused stemcells, the remote delete of the second of which fails. -/
def worldSecondFails : World FakeRepoState FakeCloudState :=
  { repo := { records := [recA, recB, recC], current := none, allErr := none,
              findCurrentErr := none },
    cloud := { createStemcellReturns := ("cid-1", none), deleteFails := ["cid-b"], deleted := [] },
    log := [] }

/-- An empty store and a driver whose create returns `cid-1`. -/
def worldEmpty : World FakeRepoState FakeCloudState :=
  { repo := { records := [], current := none, allErr := none, findCurrentErr := none },
    cloud := cloudOk, log := [] }

/-- An empty store and a driver whose create fails. -/
def worldCreateFails : World FakeRepoState FakeCloudState :=
  { repo := { records := [], current := none, allErr := none, findCurrentErr := none },
    cloud := { createStemcellReturns := ("", some (.failure "no space left")), deleteFails := [],
               deleted := [] },
    log := [] }

/-- An empty store and a driver whose create succeeds with an empty cloud id. -/
def worldEmptyCID : World FakeRepoState FakeCloudState :=
  { repo := { records := [], current := none, allErr := none, findCurrentErr := none },
    cloud := { createStemcellReturns := ("", none), deleteFails := [], deleted := [] },
    log := [] }

/-- A store that already holds a record for `ubuntu` `1.0` whose cloud id is empty. -/
def worldStoredEmptyCID : World FakeRepoState FakeCloudState :=
  { repo := { records := [{ ID := "a", Name := "ubuntu", Version := "1.0", CID := "" }],
              current := none, allErr := none, findCurrentErr := none },
    cloud := cloudOk, log := [] }

/-- A store whose `All` read fails. -/
def worldAllFails : World FakeRepoState FakeCloudState :=
  { repo := { records := [recA, recB], current := none, allErr := some (.failure "disk error"),
              findCurrentErr := none },
    cloud := cloudOk, log := [] }

/-- A store whose `FindCurrent` read fails. -/
def worldFindCurrentFails : World FakeRepoState FakeCloudState :=
  { repo := { records := [recA, recB], current := none, allErr := none,
              findCurrentErr := some (.failure "disk error") },
    cloud := cloudOk, log := [] }

/-- The extracted stemcell of the upload scenario. -/
def ubuntu : ExtractedStemcell :=
  { Manifest := { Name := "ubuntu", Version := "1.0", ImagePath := "/tmp/img",
                  CloudProperties := ([("x", "1")], none) },
    String := "ExtractedStemcell(ubuntu 1.0)" }

/-- The stage handed to `DeleteUnused` in the scenarios. -/
def deleteStage : Stage := { name := "deleting unused stemcells" }

/-! ## Basic facts -/

theorem emit_log (w : World S C) (e : Event) : (w.emit e).log = w.log ++ [e] := rfl

theorem emit_repo (w : World S C) (e : Event) : (w.emit e).repo = w.repo := rfl

theorem emit_cloud (w : World S C) (e : Event) : (w.emit e).cloud = w.cloud := rfl

/-- The loop of `FindUnused` appends, in order, one stemcell per record that passes its test. -/
theorem foldl_unused (repo : StemcellRepo S) (cloud : Cloud C) (found : Bool)
    (cur : StemcellRecord) (recs : List StemcellRecord) (acc : List (CloudStemcell S C)) :
    recs.foldl (fun unusedStemcells stemcellRecord =>
        if !found || stemcellRecord.ID != cur.ID then
          let stemcell := NewCloudStemcell stemcellRecord repo cloud
          unusedStemcells ++ [stemcell]
        else
          unusedStemcells) acc
      = acc ++ (recs.filter fun r => !found || r.ID != cur.ID).map
          (fun r => NewCloudStemcell r repo cloud) := by
  induction recs generalizing acc with
  | nil => simp
  | cons r rest ih =>
    rw [List.foldl_cons, ih]
    by_cases h : (!found || r.ID != cur.ID) = true
    · simp [List.filter_cons, h]
    · simp [List.filter_cons, h]

/-- What `FindUnused` computes when both reads succeed. -/
theorem FindUnused_reads_ok (m : manager S C) (w : World S C) (recs : List StemcellRecord)
    (cur : StemcellRecord) (found : Bool)
    (hAll : m.repo.All w.repo = (recs, none))
    (hCur : m.repo.FindCurrent w.repo = (cur, found, none)) :
    m.FindUnused w =
      (((recs.filter fun r => !found || r.ID != cur.ID).map
          (fun r => NewCloudStemcell r m.repo m.cloud), none),
        (w.emit .repoAll).emit .repoFindCurrent) := by
  simp only [manager.FindUnused, manager.repoAll, manager.repoFindCurrent, hAll, emit_repo, hCur]
  rw [foldl_unused]
  simp

/-- What `FindUnused` computes when the `All` read fails. -/
theorem FindUnused_all_fails (m : manager S C) (w : World S C) (recs : List StemcellRecord)
    (e : Error) (hAll : m.repo.All w.repo = (recs, some e)) :
    m.FindUnused w = (([], some (WrapError e "Getting all stemcell records")), w.emit .repoAll) := by
  simp only [manager.FindUnused, manager.repoAll, hAll]

/-- What `FindUnused` computes when the `All` read succeeds and the `FindCurrent` read fails. -/
theorem FindUnused_current_fails (m : manager S C) (w : World S C) (recs : List StemcellRecord)
    (cur : StemcellRecord) (found : Bool) (e : Error)
    (hAll : m.repo.All w.repo = (recs, none))
    (hCur : m.repo.FindCurrent w.repo = (cur, found, some e)) :
    m.FindUnused w =
      (([], some (WrapError e "Finding current disk record")),
        (w.emit .repoAll).emit .repoFindCurrent) := by
  simp only [manager.FindUnused, manager.repoAll, manager.repoFindCurrent, hAll, emit_repo, hCur]

/-! ## FindCurrent -/

/-- Claim C9. `manager.FindCurrent` is determined by the store's `FindCurrent` read.  When the read
fails with `e` it returns no stemcell, `found = false` and the error `e` wrapped with the context
"Reading stemcell record"; when the read succeeds with nothing marked current it returns no
stemcell, `found = false` and no error; when the read succeeds with a current record it returns
`found = true`, no error and the cloud stemcell built from that record.  It returns an error if
and only if the read fails.  The store and the cloud are left as they were, and the one call made
is the read. -/
theorem FindCurrent_determined_by_read (m : manager S C) (w : World S C) :
    (∀ e, (m.repo.FindCurrent w.repo).2.2 = some e →
      (m.FindCurrent w).1 = (none, false, some (WrapError e "Reading stemcell record"))
        ∧ (WrapError e "Reading stemcell record").Error = "Reading stemcell record: " ++ e.Error)
    ∧ ((m.repo.FindCurrent w.repo).2.2 = none → (m.repo.FindCurrent w.repo).2.1 = false →
      (m.FindCurrent w).1 = (none, false, none))
    ∧ ((m.repo.FindCurrent w.repo).2.2 = none → (m.repo.FindCurrent w.repo).2.1 = true →
      (m.FindCurrent w).1 =
        (some (NewCloudStemcell (m.repo.FindCurrent w.repo).1 m.repo m.cloud), true, none))
    ∧ ((m.FindCurrent w).1.2.2 ≠ none ↔ (m.repo.FindCurrent w.repo).2.2 ≠ none)
    ∧ (m.FindCurrent w).2 = w.emit .repoFindCurrent := by
  rcases hread : m.repo.FindCurrent w.repo with ⟨rec, found, err⟩
  cases err with
  | some e =>
    simp [manager.FindCurrent, manager.repoFindCurrent, hread, WrapError, Error.Error]
  | none =>
    cases found <;> simp [manager.FindCurrent, manager.repoFindCurrent, hread]

/-- The three outcomes of claim C9 on the in-memory store: a failing read, nothing marked current,
and a current record. -/
theorem FindCurrent_determined_by_read_witness :
    (fakeManager.FindCurrent worldFindCurrentFails).1
        = (none, false, some (.failure "Reading stemcell record: disk error"))
    ∧ (fakeManager.FindCurrent worldNoCurrent).1 = (none, false, none)
    ∧ (fakeManager.FindCurrent worldWithCurrent).1
        = (some (NewCloudStemcell recCur fakeRepo fakeCloud), true, none) :=
  ⟨((FindCurrent_determined_by_read fakeManager worldFindCurrentFails).1
      (.failure "disk error") rfl).1,
   (FindCurrent_determined_by_read fakeManager worldNoCurrent).2.1 rfl rfl,
   (FindCurrent_determined_by_read fakeManager worldWithCurrent).2.2.1 rfl rfl⟩

/-! ## FindUnused -/

/-- Claim C1. In a store state in which `All` succeeds with the records `recs` and `FindCurrent`
reports the current record `cur`, `manager.FindUnused` returns no error and, in the order of
`recs`, the cloud stemcells of exactly the records whose ID differs from the ID of `cur`: no
returned stemcell is built from a record with that ID, and every record with another ID is
returned as many times as it occurs in `recs`. -/
theorem FindUnused_excludes_current (m : manager S C) (w : World S C)
    (recs : List StemcellRecord) (cur : StemcellRecord)
    (hAll : m.repo.All w.repo = (recs, none))
    (hCur : m.repo.FindCurrent w.repo = (cur, true, none)) :
    (m.FindUnused w).1 =
        ((recs.filter fun r => r.ID ≠ cur.ID).map (fun r => NewCloudStemcell r m.repo m.cloud),
          none)
    ∧ (∀ s ∈ (m.FindUnused w).1.1, s.record.ID ≠ cur.ID)
    ∧ (∀ r, r.ID ≠ cur.ID →
        ((m.FindUnused w).1.1.map (·.record)).count r = recs.count r)
    ∧ ((m.FindUnused w).1.1.map (·.record)).Sublist recs := by
  have hfilter : (recs.filter fun r => !true || r.ID != cur.ID)
      = recs.filter fun r => r.ID ≠ cur.ID := by
    congr 1; funext r; simp [bne, BEq.beq]
  have hmap : ((recs.filter fun r => decide (r.ID ≠ cur.ID)).map
      (fun r => NewCloudStemcell r m.repo m.cloud)).map (·.record)
        = recs.filter fun r => decide (r.ID ≠ cur.ID) := by
    simp [List.map_map, Function.comp_def, NewCloudStemcell]
  rw [FindUnused_reads_ok m w recs cur true hAll hCur, hfilter]
  refine ⟨rfl, ?_, ?_, ?_⟩
  · intro s hs
    simp only [List.mem_map, List.mem_filter] at hs
    obtain ⟨r, ⟨_, hr⟩, rfl⟩ := hs
    simpa [NewCloudStemcell] using hr
  · intro r hr
    simp only [hmap]
    rw [List.count_filter]
    simpa using hr
  · simp only [hmap]
    exact List.filter_sublist recs

/-- Claim C1 on the in-memory store holding `recA`, `recCur`, `recB` with `recCur` current. -/
theorem FindUnused_excludes_current_witness :
    (fakeManager.FindUnused worldWithCurrent).1 =
      (([recA, recCur, recB].filter fun r => r.ID ≠ recCur.ID).map
        (fun r => NewCloudStemcell r fakeManager.repo fakeManager.cloud), none) :=
  (FindUnused_excludes_current fakeManager worldWithCurrent [recA, recCur, recB] recCur
    rfl rfl).1

/-- Claim C2. In a store state in which `All` succeeds with the records `recs` and `FindCurrent`
reports not-found, `manager.FindUnused` returns no error and one cloud stemcell for every record
of `recs`, in the same order and with the same length. -/
theorem FindUnused_no_current_all (m : manager S C) (w : World S C)
    (recs : List StemcellRecord) (cur : StemcellRecord)
    (hAll : m.repo.All w.repo = (recs, none))
    (hCur : m.repo.FindCurrent w.repo = (cur, false, none)) :
    (m.FindUnused w).1 = (recs.map (fun r => NewCloudStemcell r m.repo m.cloud), none)
    ∧ (m.FindUnused w).1.1.map (·.record) = recs
    ∧ (m.FindUnused w).1.1.length = recs.length := by
  rw [FindUnused_reads_ok m w recs cur false hAll hCur]
  simp [List.map_map, Function.comp_def, NewCloudStemcell]

/-- Claim C2 on the in-memory store holding `recA`, `recB`, `recC` with nothing current. -/
theorem FindUnused_no_current_all_witness :
    (fakeManager.FindUnused worldNoCurrent).1.1.map (·.record) = [recA, recB, recC] :=
  (FindUnused_no_current_all fakeManager worldNoCurrent [recA, recB, recC] default rfl rfl).2.1

/-! ## Upload -/

/-- The journal entries of an upload that creates and saves. -/
theorem Upload_created (m : manager S C) (x : ExtractedStemcell) (w : World S C)
    (notFound : StemcellRecord) (p : CloudProperties) (c : String) (cloud' : C)
    (r : StemcellRecord) (repo' : S)
    (hfind : m.repo.Find x.Manifest.Name x.Manifest.Version w.repo = (notFound, false, none))
    (hprops : x.Manifest.CloudProperties = (p, none))
    (hcreate : m.cloud.CreateStemcell p x.Manifest.ImagePath w.cloud = ((c, none), cloud'))
    (hsave : m.repo.Save x.Manifest.Name x.Manifest.Version c w.repo = ((r, none), repo')) :
    m.Upload x w =
      ((some (NewCloudStemcell r m.repo m.cloud), none),
        { repo := repo', cloud := cloud',
          log := w.log ++
            [.stageStarted "uploading stemcell",
             .stepStarted "uploading stemcell" "Uploading",
             .repoFind x.Manifest.Name x.Manifest.Version,
             .cloudCreateStemcell p x.Manifest.ImagePath,
             .repoSave x.Manifest.Name x.Manifest.Version c,
             .stepFinished "uploading stemcell" "Uploading",
             .stageFinished "uploading stemcell"] }) := by
  simp [manager.Upload, Stage.PerformStep, Stage.Start, Stage.Finish, EventLogger.NewStage,
    manager.uploadStep, manager.repoFind, manager.cloudCreateStemcell, manager.repoSave,
    World.emit, hfind, hprops, hcreate, hsave]

/-- The journal entries of an upload that finds the record in the store. -/
theorem Upload_found (m : manager S C) (x : ExtractedStemcell) (w : World S C)
    (r : StemcellRecord)
    (hfind : m.repo.Find x.Manifest.Name x.Manifest.Version w.repo = (r, true, none)) :
    m.Upload x w =
      ((some (NewCloudStemcell r m.repo m.cloud), none),
        { repo := w.repo, cloud := w.cloud,
          log := w.log ++
            [.stageStarted "uploading stemcell",
             .stepStarted "uploading stemcell" "Uploading",
             .repoFind x.Manifest.Name x.Manifest.Version,
             .stepSkipped "uploading stemcell" "Uploading" "Stemcell already uploaded",
             .stageFinished "uploading stemcell"] }) := by
  simp [manager.Upload, Stage.PerformStep, Stage.Start, Stage.Finish, EventLogger.NewStage,
    manager.uploadStep, manager.repoFind, NewSkippedStepError, World.emit, hfind]

/-- The journal entries of an upload whose create fails. -/
theorem Upload_create_failed (m : manager S C) (x : ExtractedStemcell) (w : World S C)
    (notFound : StemcellRecord) (p : CloudProperties) (c : String) (e : Error) (cloud' : C)
    (hfind : m.repo.Find x.Manifest.Name x.Manifest.Version w.repo = (notFound, false, none))
    (hprops : x.Manifest.CloudProperties = (p, none))
    (hcreate : m.cloud.CreateStemcell p x.Manifest.ImagePath w.cloud = ((c, some e), cloud')) :
    m.Upload x w =
      ((none, some (WrapError e
          ("creating stemcell (" ++ x.Manifest.Name ++ " " ++ x.Manifest.Version ++ ")"))),
        { repo := w.repo, cloud := cloud',
          log := w.log ++
            [.stageStarted "uploading stemcell",
             .stepStarted "uploading stemcell" "Uploading",
             .repoFind x.Manifest.Name x.Manifest.Version,
             .cloudCreateStemcell p x.Manifest.ImagePath,
             .stepFailed "uploading stemcell" "Uploading"
               ("creating stemcell (" ++ x.Manifest.Name ++ " " ++ x.Manifest.Version ++ ")"
                 ++ ": " ++ e.Error)] }) := by
  simp [manager.Upload, Stage.PerformStep, Stage.Start, EventLogger.NewStage,
    manager.uploadStep, manager.repoFind, manager.cloudCreateStemcell, WrapError,
    World.emit, hfind, hprops, hcreate]

/-- Claim C6, as stated, fails.  Take the empty store whose `Save` persists the record and returns
no error but hands back the zero record, the stemcell `ubuntu` `1.0` with image path `/tmp/img`,
and a driver returning `cid-1`.  The store has no record for the identity, the cloud properties are
derivable, `CreateStemcell` returns `cid-1` and `Save` succeeds; `manager.Upload` returns no error
after one `CreateStemcell` and one `Save("ubuntu", "1.0", "cid-1")`, and the record is in the
store, yet the `CID()` of the stemcell it returns is empty, not `cid-1`. -/
theorem Upload_save_record_counterexample :
    forgetfulManager.repo.Find ubuntu.Manifest.Name ubuntu.Manifest.Version worldEmpty.repo
        = (default, false, none)
    ∧ ubuntu.Manifest.CloudProperties = ([("x", "1")], none)
    ∧ forgetfulManager.cloud.CreateStemcell [("x", "1")] ubuntu.Manifest.ImagePath
          worldEmpty.cloud = (("cid-1", none), cloudOk)
    ∧ (forgetfulManager.repo.Save ubuntu.Manifest.Name ubuntu.Manifest.Version "cid-1"
          worldEmpty.repo).1.2 = none
    ∧ (forgetfulManager.repo.Save ubuntu.Manifest.Name ubuntu.Manifest.Version "cid-1"
          worldEmpty.repo).2.records
        = [{ ID := "id-ubuntu-1.0", Name := "ubuntu", Version := "1.0", CID := "cid-1" }]
    ∧ (forgetfulManager.Upload ubuntu worldEmpty).1.2 = none
    ∧ createCalls (forgetfulManager.Upload ubuntu worldEmpty).2.log = [([("x", "1")], "/tmp/img")]
    ∧ saveCalls (forgetfulManager.Upload ubuntu worldEmpty).2.log = [("ubuntu", "1.0", "cid-1")]
    ∧ (forgetfulManager.Upload ubuntu worldEmpty).1.1.map (·.CID) = some ""
    ∧ (forgetfulManager.Upload ubuntu worldEmpty).1.1.map (·.CID) ≠ some "cid-1" := by
  refine ⟨rfl, rfl, rfl, rfl, rfl, rfl, rfl, rfl, rfl, ?_⟩
  decide

/-- Claim C6, amended.  For an extracted stemcell with identity `(n, v)`, cloud properties `p` and
image path `i`, and a store with no record for `(n, v)`: when the cloud properties are derivable,
the driver's `CreateStemcell(p, i)` returns the cloud_id `c`, and `Save(n, v, c)` succeeds and
returns a record `r` whose cloud_id is `c`, `manager.Upload` invokes `CreateStemcell` exactly
once, with `(p, i)`, invokes `Save` exactly once, with `(n, v, c)`, returns no error, and returns
the cloud stemcell built from `r`, whose `CID()` is `c`; the store and the cloud are left as `Save`
and `CreateStemcell` left them.  The manager does not compare the record `Save` returns with the
cloud_id it passed. -/
theorem Upload_creates_and_saves (m : manager S C) (x : ExtractedStemcell) (w : World S C)
    (notFound : StemcellRecord) (p : CloudProperties) (c : String) (cloud' : C)
    (r : StemcellRecord) (repo' : S)
    (hfind : m.repo.Find x.Manifest.Name x.Manifest.Version w.repo = (notFound, false, none))
    (hprops : x.Manifest.CloudProperties = (p, none))
    (hcreate : m.cloud.CreateStemcell p x.Manifest.ImagePath w.cloud = ((c, none), cloud'))
    (hsave : m.repo.Save x.Manifest.Name x.Manifest.Version c w.repo = ((r, none), repo'))
    (hrec : r.CID = c) :
    ∃ s evs,
      (m.Upload x w).1 = (some s, none)
      ∧ s.CID = c
      ∧ s = NewCloudStemcell r m.repo m.cloud
      ∧ (m.Upload x w).2.log = w.log ++ evs
      ∧ createCalls evs = [(p, x.Manifest.ImagePath)]
      ∧ saveCalls evs = [(x.Manifest.Name, x.Manifest.Version, c)]
      ∧ (m.Upload x w).2.repo = repo'
      ∧ (m.Upload x w).2.cloud = cloud' := by
  rw [Upload_created m x w notFound p c cloud' r repo' hfind hprops hcreate hsave]
  exact ⟨_, _, rfl, by simpa [CloudStemcell.CID, NewCloudStemcell] using hrec, rfl, rfl,
    by simp [createCalls], by simp [saveCalls], rfl, rfl⟩

/-- Claim C6, amended, in the scenario of the specification: an empty store, the stemcell
`ubuntu` `1.0` with image path `/tmp/img`, and a driver that returns `cid-1`. -/
theorem Upload_creates_and_saves_witness :
    ∃ s evs,
      (fakeManager.Upload ubuntu worldEmpty).1 = (some s, none)
      ∧ s.CID = "cid-1"
      ∧ s = NewCloudStemcell
          { ID := "id-ubuntu-1.0", Name := "ubuntu", Version := "1.0", CID := "cid-1" }
          fakeManager.repo fakeManager.cloud
      ∧ (fakeManager.Upload ubuntu worldEmpty).2.log = worldEmpty.log ++ evs
      ∧ createCalls evs = [([("x", "1")], "/tmp/img")]
      ∧ saveCalls evs = [("ubuntu", "1.0", "cid-1")]
      ∧ (fakeManager.Upload ubuntu worldEmpty).2.repo =
          { records := [{ ID := "id-ubuntu-1.0", Name := "ubuntu", Version := "1.0",
                          CID := "cid-1" }],
            current := none, allErr := none, findCurrentErr := none }
      ∧ (fakeManager.Upload ubuntu worldEmpty).2.cloud = cloudOk :=
  Upload_creates_and_saves fakeManager ubuntu worldEmpty default [("x", "1")] "cid-1" cloudOk
    { ID := "id-ubuntu-1.0", Name := "ubuntu", Version := "1.0", CID := "cid-1" }
    { records := [{ ID := "id-ubuntu-1.0", Name := "ubuntu", Version := "1.0", CID := "cid-1" }],
      current := none, allErr := none, findCurrentErr := none }
    rfl rfl rfl rfl rfl

/-- Claim C4. For a store state with no record for the identity of the extracted stemcell and
derivable cloud properties, when the driver's `CreateStemcell` fails with `e`, `manager.Upload`
returns no stemcell and the error `e` wrapped with the name and version of the stemcell
("creating stemcell (name version)"), never invokes `Save` (its only call on the store is the
`Find` read), and leaves the store in the state it was in, in which `Find` still reports no record
for the identity. -/
theorem Upload_create_failure_leaves_store (m : manager S C) (x : ExtractedStemcell)
    (w : World S C) (notFound : StemcellRecord) (p : CloudProperties) (c : String) (e : Error)
    (cloud' : C)
    (hfind : m.repo.Find x.Manifest.Name x.Manifest.Version w.repo = (notFound, false, none))
    (hprops : x.Manifest.CloudProperties = (p, none))
    (hcreate : m.cloud.CreateStemcell p x.Manifest.ImagePath w.cloud = ((c, some e), cloud')) :
    (m.Upload x w).1 = (none, some (WrapError e
        ("creating stemcell (" ++ x.Manifest.Name ++ " " ++ x.Manifest.Version ++ ")")))
    ∧ (WrapError e
        ("creating stemcell (" ++ x.Manifest.Name ++ " " ++ x.Manifest.Version ++ ")")).Error
        = "creating stemcell (" ++ x.Manifest.Name ++ " " ++ x.Manifest.Version ++ ")"
            ++ ": " ++ e.Error
    ∧ (m.Upload x w).2.repo = w.repo
    ∧ (m.repo.Find x.Manifest.Name x.Manifest.Version (m.Upload x w).2.repo).2.1 = false
    ∧ ∃ evs, (m.Upload x w).2.log = w.log ++ evs
        ∧ saveCalls evs = []
        ∧ createCalls evs = [(p, x.Manifest.ImagePath)]
        ∧ ∀ ev ∈ evs, ∀ record, ev ≠ .repoDelete record := by
  rw [Upload_create_failed m x w notFound p c e cloud' hfind hprops hcreate]
  refine ⟨rfl, by simp [WrapError, Error.Error], rfl, by simp [hfind], _, rfl, ?_, ?_, ?_⟩
  · simp [saveCalls]
  · simp [createCalls]
  · simp

/-- Claim C4 on an empty in-memory store with a driver whose create fails. -/
theorem Upload_create_failure_leaves_store_witness :
    (fakeManager.Upload ubuntu worldCreateFails).1
        = (none, some (WrapError (.failure "no space left")
            ("creating stemcell (" ++ "ubuntu" ++ " " ++ "1.0" ++ ")")))
    ∧ (fakeManager.Upload ubuntu worldCreateFails).2.repo = worldCreateFails.repo :=
  ⟨(Upload_create_failure_leaves_store fakeManager ubuntu worldCreateFails default
      [("x", "1")] "" (.failure "no space left") worldCreateFails.cloud rfl rfl rfl).1,
   (Upload_create_failure_leaves_store fakeManager ubuntu worldCreateFails default
      [("x", "1")] "" (.failure "no space left") worldCreateFails.cloud rfl rfl rfl).2.2.1⟩

/-- Claim C3. Take an identity `(n, v)` and a store that holds no record for it (`Find` reports
not-found and the enumeration `All` lists no record for `(n, v)`) and honours its contract: the
successful `Save(n, v, c)` adds one record for `(n, v)` to the enumeration and makes a later
`Find(n, v)` report the saved record.  With the driver's create succeeding, two calls of
`manager.Upload` with the same extracted stemcell leave exactly one record for `(n, v)` in the
store (the store is in the state the single `Save` left it in); the closure of the second call
ends with the skip signal and its step is reported as skipped; the second call invokes
`CreateStemcell` and `Save` zero times, so that over both calls each is invoked once; and the
second call returns no error and the stemcell of the saved record. -/
theorem Upload_twice_idempotent (m : manager S C) (x : ExtractedStemcell) (w : World S C)
    (notFound : StemcellRecord) (p : CloudProperties) (c : String) (cloud' : C)
    (r : StemcellRecord) (repo' : S)
    (hfind : m.repo.Find x.Manifest.Name x.Manifest.Version w.repo = (notFound, false, none))
    (hnone : recordsFor x.Manifest.Name x.Manifest.Version (m.repo.All w.repo).1 = 0)
    (hprops : x.Manifest.CloudProperties = (p, none))
    (hcreate : m.cloud.CreateStemcell p x.Manifest.ImagePath w.cloud = ((c, none), cloud'))
    (hsave : m.repo.Save x.Manifest.Name x.Manifest.Version c w.repo = ((r, none), repo'))
    (hadds : recordsFor x.Manifest.Name x.Manifest.Version (m.repo.All repo').1
      = recordsFor x.Manifest.Name x.Manifest.Version (m.repo.All w.repo).1 + 1)
    (hcontract : m.repo.Find x.Manifest.Name x.Manifest.Version repo' = (r, true, none)) :
    ∃ evs₁ evs₂,
      (m.Upload x w).2.log = w.log ++ evs₁
      ∧ (m.Upload x (m.Upload x w).2).2.log = (m.Upload x w).2.log ++ evs₂
      ∧ (m.Upload x (m.Upload x w).2).1 = (some (NewCloudStemcell r m.repo m.cloud), none)
      ∧ (m.uploadStep x
            (((m.eventLogger.NewStage "uploading stemcell").Start (m.Upload x w).2).emit
              (.stepStarted "uploading stemcell" "Uploading"))).1.1
          = some (NewSkippedStepError "Stemcell already uploaded")
      ∧ stepsSkipped evs₂ = ["Uploading"]
      ∧ createCalls evs₂ = []
      ∧ saveCalls evs₂ = []
      ∧ createCalls (evs₁ ++ evs₂) = [(p, x.Manifest.ImagePath)]
      ∧ saveCalls (evs₁ ++ evs₂) = [(x.Manifest.Name, x.Manifest.Version, c)]
      ∧ (m.Upload x (m.Upload x w).2).2.repo = repo'
      ∧ (m.Upload x (m.Upload x w).2).2.cloud = cloud'
      ∧ recordsFor x.Manifest.Name x.Manifest.Version
          (m.repo.All (m.Upload x (m.Upload x w).2).2.repo).1 = 1 := by
  have h₁ := Upload_created m x w notFound p c cloud' r repo' hfind hprops hcreate hsave
  have h₂ := Upload_found m x (m.Upload x w).2 r (by rw [h₁]; exact hcontract)
  have hstep : (m.uploadStep x
      (((m.eventLogger.NewStage "uploading stemcell").Start (m.Upload x w).2).emit
        (.stepStarted "uploading stemcell" "Uploading"))).1.1
      = some (NewSkippedStepError "Stemcell already uploaded") := by
    rw [h₁]
    simp [manager.uploadStep, manager.repoFind, Stage.Start, World.emit, hcontract]
  rw [h₂]
  refine ⟨_, _, by rw [h₁], rfl, rfl, hstep, ?_, ?_, ?_, ?_, ?_, ?_, ?_, ?_⟩
  · simp [stepsSkipped]
  · simp [createCalls]
  · simp [saveCalls]
  · simp [createCalls]
  · simp [saveCalls]
  · rw [h₁]
  · rw [h₁]
  · simp only [h₁]
    rw [hadds, hnone]

/-- Claim C3 on an empty in-memory store: after two uploads of `ubuntu` `1.0` the enumeration
lists one record for it, and the second upload made no create and no save. -/
theorem Upload_twice_idempotent_witness :
    ∃ evs₁ evs₂,
      (fakeManager.Upload ubuntu worldEmpty).2.log = worldEmpty.log ++ evs₁
      ∧ (fakeManager.Upload ubuntu (fakeManager.Upload ubuntu worldEmpty).2).2.log
          = (fakeManager.Upload ubuntu worldEmpty).2.log ++ evs₂
      ∧ (fakeManager.Upload ubuntu (fakeManager.Upload ubuntu worldEmpty).2).1
          = (some (NewCloudStemcell
              { ID := "id-ubuntu-1.0", Name := "ubuntu", Version := "1.0", CID := "cid-1" }
              fakeManager.repo fakeManager.cloud), none)
      ∧ (fakeManager.uploadStep ubuntu
            (((fakeManager.eventLogger.NewStage "uploading stemcell").Start
                (fakeManager.Upload ubuntu worldEmpty).2).emit
              (.stepStarted "uploading stemcell" "Uploading"))).1.1
          = some (NewSkippedStepError "Stemcell already uploaded")
      ∧ stepsSkipped evs₂ = ["Uploading"]
      ∧ createCalls evs₂ = []
      ∧ saveCalls evs₂ = []
      ∧ createCalls (evs₁ ++ evs₂) = [([("x", "1")], "/tmp/img")]
      ∧ saveCalls (evs₁ ++ evs₂) = [("ubuntu", "1.0", "cid-1")]
      ∧ (fakeManager.Upload ubuntu (fakeManager.Upload ubuntu worldEmpty).2).2.repo
          = { records := [{ ID := "id-ubuntu-1.0", Name := "ubuntu", Version := "1.0",
                            CID := "cid-1" }],
              current := none, allErr := none, findCurrentErr := none }
      ∧ (fakeManager.Upload ubuntu (fakeManager.Upload ubuntu worldEmpty).2).2.cloud = cloudOk
      ∧ recordsFor "ubuntu" "1.0"
          (fakeManager.repo.All
            (fakeManager.Upload ubuntu (fakeManager.Upload ubuntu worldEmpty).2).2.repo).1 = 1 :=
  Upload_twice_idempotent fakeManager ubuntu worldEmpty default [("x", "1")] "cid-1" cloudOk
    { ID := "id-ubuntu-1.0", Name := "ubuntu", Version := "1.0", CID := "cid-1" }
    { records := [{ ID := "id-ubuntu-1.0", Name := "ubuntu", Version := "1.0", CID := "cid-1" }],
      current := none, allErr := none, findCurrentErr := none }
    rfl rfl rfl rfl rfl rfl rfl

/-- Claim C7, as stated, fails.  On an empty store, with a driver whose `CreateStemcell` succeeds
with the empty string, `manager.Upload` succeeds and returns a cloud stemcell whose `CID()` is
empty; and on a store that holds a record with an empty cloud_id for the identity, it succeeds
(the step is skipped) and returns the stemcell of that record, whose `CID()` is empty.  So it is
not the case that every stemcell returned on success has a non-empty `CID()`. -/
theorem Upload_cid_nonempty_counterexample :
    (fakeManager.Upload ubuntu worldEmptyCID).1.2 = none
    ∧ (fakeManager.Upload ubuntu worldEmptyCID).1.1.map (·.CID) = some ""
    ∧ (fakeManager.Upload ubuntu worldStoredEmptyCID).1.2 = none
    ∧ (fakeManager.Upload ubuntu worldStoredEmptyCID).1.1.map (·.CID) = some ""
    ∧ ¬ (∀ (m : manager FakeRepoState FakeCloudState) (x : ExtractedStemcell)
          (w : World FakeRepoState FakeCloudState) (s : CloudStemcell FakeRepoState FakeCloudState),
          (m.Upload x w).1 = (some s, none) → s.CID ≠ "") := by
  refine ⟨rfl, rfl, rfl, rfl, fun h => ?_⟩
  exact h fakeManager ubuntu worldEmptyCID
    (NewCloudStemcell { ID := "id-ubuntu-1.0", Name := "ubuntu", Version := "1.0", CID := "" }
      fakeRepo fakeCloud) rfl rfl

/-- Claim C7, amended.  `manager.Upload` does not inspect the cloud_id; the stemcell it returns on
success carries the cloud_id of the record `Find` reported or of the record `Save` returned.  So
when the record the store finds for the identity has a non-empty cloud_id, the driver's
`CreateStemcell` returns a non-empty cloud_id whenever it succeeds, and `Save` returns a record
carrying the cloud_id it was given, every cloud stemcell that `manager.Upload` returns on success
has a non-empty `CID()`. -/
theorem Upload_cid_nonempty_of_collaborators (m : manager S C) (x : ExtractedStemcell)
    (w : World S C)
    (hstore : ∀ r, m.repo.Find x.Manifest.Name x.Manifest.Version w.repo = (r, true, none) →
      r.CID ≠ "")
    (hdriver : ∀ p c cloud', m.cloud.CreateStemcell p x.Manifest.ImagePath w.cloud
      = ((c, none), cloud') → c ≠ "")
    (hsave : ∀ c r repo', m.repo.Save x.Manifest.Name x.Manifest.Version c w.repo
      = ((r, none), repo') → r.CID = c)
    (s : CloudStemcell S C) (hok : (m.Upload x w).1 = (some s, none)) :
    s.CID ≠ "" := by
  rcases hfind : m.repo.Find x.Manifest.Name x.Manifest.Version w.repo with ⟨fr, found, ferr⟩
  cases ferr with
  | some e =>
    simp [manager.Upload, Stage.PerformStep, Stage.Start, Stage.Finish, EventLogger.NewStage,
      manager.uploadStep, manager.repoFind, WrapError, World.emit, hfind] at hok
  | none =>
    cases found with
    | true =>
      rw [Upload_found m x w fr hfind] at hok
      simp only [Prod.mk.injEq, Option.some.injEq, and_true] at hok
      subst hok
      exact hstore fr hfind
    | false =>
      rcases hprops : x.Manifest.CloudProperties with ⟨p, perr⟩
      cases perr with
      | some e =>
        simp [manager.Upload, Stage.PerformStep, Stage.Start, Stage.Finish,
          EventLogger.NewStage, manager.uploadStep, manager.repoFind, WrapError, World.emit,
          hfind, hprops] at hok
      | none =>
        rcases hcreate : m.cloud.CreateStemcell p x.Manifest.ImagePath w.cloud with
          ⟨⟨c, cerr⟩, cloud'⟩
        cases cerr with
        | some e =>
          rw [Upload_create_failed m x w fr p c e cloud' hfind hprops hcreate] at hok
          simp at hok
        | none =>
          rcases hsv : m.repo.Save x.Manifest.Name x.Manifest.Version c w.repo with
            ⟨⟨r, serr⟩, repo'⟩
          cases serr with
          | some e =>
            simp [manager.Upload, Stage.PerformStep, Stage.Start, Stage.Finish,
              EventLogger.NewStage, manager.uploadStep, manager.repoFind,
              manager.cloudCreateStemcell, manager.repoSave, WrapError, World.emit,
              hfind, hprops, hcreate, hsv] at hok
          | none =>
            rw [Upload_created m x w fr p c cloud' r repo' hfind hprops hcreate hsv] at hok
            simp only [Prod.mk.injEq, Option.some.injEq, and_true] at hok
            subst hok
            have hc : r.CID = c := hsave c r repo' hsv
            have hne : c ≠ "" := hdriver p c cloud' hcreate
            simpa [CloudStemcell.CID, NewCloudStemcell, hc] using hne

/-- Claim C7, amended, on an empty in-memory store with a driver that returns `cid-1`. -/
theorem Upload_cid_nonempty_of_collaborators_witness :
    (NewCloudStemcell
      { ID := "id-ubuntu-1.0", Name := "ubuntu", Version := "1.0", CID := "cid-1" }
      fakeRepo fakeCloud).CID ≠ "" :=
  Upload_cid_nonempty_of_collaborators fakeManager ubuntu worldEmpty
    (fun r h => by simp [fakeManager, NewManager, fakeRepo, worldEmpty, ubuntu] at h)
    (fun p c cloud' h => by
      simp [fakeManager, NewManager, fakeCloud, worldEmpty, cloudOk] at h
      rw [← h.1]; decide)
    (fun c r repo' h => by
      simp [fakeManager, NewManager, fakeRepo] at h
      rw [← h.1])
    _ rfl

/-! ## Delete and the loop of DeleteUnused -/

theorem deletedRecords_append (a b : List Event) :
    deletedRecords (a ++ b) = deletedRecords a ++ deletedRecords b := by
  simp [deletedRecords, List.filterMap_append]

theorem stepsStarted_append (a b : List Event) :
    stepsStarted (a ++ b) = stepsStarted a ++ stepsStarted b := by
  simp [stepsStarted, List.filterMap_append]

theorem saveCalls_append (a b : List Event) :
    saveCalls (a ++ b) = saveCalls a ++ saveCalls b := by
  simp [saveCalls, List.filterMap_append]

theorem createCalls_append (a b : List Event) :
    createCalls (a ++ b) = createCalls a ++ createCalls b := by
  simp [createCalls, List.filterMap_append]

theorem deleteTrace_nil : deleteTrace [] ([] : List (CloudStemcell S C)) := by
  simp [deleteTrace, deletedRecords, stepsStarted, saveCalls, createCalls]

theorem deleteTrace_append (a b : List Event) (ss ts : List (CloudStemcell S C))
    (ha : deleteTrace a ss) (hb : deleteTrace b ts) : deleteTrace (a ++ b) (ss ++ ts) := by
  obtain ⟨ha1, ha2, ha3, ha4⟩ := ha
  obtain ⟨hb1, hb2, hb3, hb4⟩ := hb
  simp [deleteTrace, deletedRecords_append, stepsStarted_append, saveCalls_append,
    createCalls_append, ha1, ha2, ha3, ha4, hb1, hb2, hb3, hb4]

theorem sameState_refl (w : World S C) : sameState w w := ⟨rfl, rfl⟩

theorem sameState_symm {w w' : World S C} (h : sameState w w') : sameState w' w :=
  ⟨h.1.symm, h.2.symm⟩

theorem sameState_trans {w₁ w₂ w₃ : World S C} (h : sameState w₁ w₂) (h' : sameState w₂ w₃) :
    sameState w₁ w₃ :=
  ⟨h.1.trans h'.1, h.2.trans h'.2⟩

theorem sameState_emit (w : World S C) (e : Event) : sameState (w.emit e) w := ⟨rfl, rfl⟩

/-- `Delete` spelled out: the result and the new states depend on the store and the cloud only,
and the journal grows by the entries of the calls made. -/
theorem Delete_eq (s : CloudStemcell S C) (w : World S C) :
    s.Delete w =
      match s.cloud.DeleteStemcell s.CID w.cloud with
      | (some e, cloud) =>
        (some e, { repo := w.repo, cloud := cloud,
                   log := w.log ++ [.stemcellDelete s.record, .cloudDeleteStemcell s.CID] })
      | (none, cloud) =>
        ((s.repo.Delete s.record w.repo).1,
          { repo := (s.repo.Delete s.record w.repo).2, cloud := cloud,
            log := w.log ++ [.stemcellDelete s.record, .cloudDeleteStemcell s.CID,
                             .repoDelete s.record] }) := by
  rcases h : s.cloud.DeleteStemcell s.CID w.cloud with ⟨err, cloud⟩
  cases err <;> simp [CloudStemcell.Delete, World.emit, h]

/-- The outcome of `Delete` and the states it leaves do not depend on the journal. -/
theorem Delete_congr (s : CloudStemcell S C) {w w' : World S C} (h : sameState w w') :
    (s.Delete w).1 = (s.Delete w').1 ∧ sameState (s.Delete w).2 (s.Delete w').2 := by
  obtain ⟨hr, hc⟩ := h
  rw [Delete_eq s w, Delete_eq s w', hr, hc]
  rcases s.cloud.DeleteStemcell s.CID w'.cloud with ⟨err, cloud⟩
  cases err <;> simp [sameState]

/-- The journal entries of one `Delete`: one invocation, on the record of the stemcell. -/
theorem Delete_frame (s : CloudStemcell S C) (w : World S C) :
    ∃ evs, (s.Delete w).2.log = w.log ++ evs ∧ deletedRecords evs = [s.record]
      ∧ stepsStarted evs = [] ∧ saveCalls evs = [] ∧ createCalls evs = [] := by
  rw [Delete_eq s w]
  rcases s.cloud.DeleteStemcell s.CID w.cloud with ⟨err, cloud⟩
  cases err with
  | none =>
    exact ⟨_, rfl, by simp [deletedRecords], by simp [stepsStarted], by simp [saveCalls],
      by simp [createCalls]⟩
  | some e =>
    exact ⟨_, rfl, by simp [deletedRecords], by simp [stepsStarted], by simp [saveCalls],
      by simp [createCalls]⟩

theorem DeletesSucceed_congr (ss : List (CloudStemcell S C)) {w w' : World S C}
    (h : sameState w w') (hs : DeletesSucceed ss w) : DeletesSucceed ss w' := by
  induction ss generalizing w w' with
  | nil => trivial
  | cons s rest ih =>
    obtain ⟨h1, h2⟩ := hs
    obtain ⟨c1, c2⟩ := Delete_congr s h
    exact ⟨c1 ▸ h1, ih c2 h2⟩

theorem afterDeletes_congr (ss : List (CloudStemcell S C)) {w w' : World S C}
    (h : sameState w w') : sameState (afterDeletes ss w) (afterDeletes ss w') := by
  induction ss generalizing w w' with
  | nil => exact h
  | cons s rest ih => exact ih (Delete_congr s h).2

theorem afterDeletes_append (ss ts : List (CloudStemcell S C)) (w : World S C) :
    afterDeletes (ss ++ ts) w = afterDeletes ts (afterDeletes ss w) := by
  induction ss generalizing w with
  | nil => rfl
  | cons s rest ih => exact ih _

/-- One turn of the loop whose `Delete` succeeds: the loop goes on with the rest. -/
theorem deleteLoop_cons_ok (stage : Stage) (s : CloudStemcell S C)
    (rest : List (CloudStemcell S C)) (w : World S C) (h : (s.Delete w).1 = none) :
    ∃ w₁ evs, deleteLoop stage (s :: rest) w = deleteLoop stage rest w₁
      ∧ sameState w₁ (s.Delete w).2 ∧ w₁.log = w.log ++ evs ∧ deleteTrace evs [s] := by
  obtain ⟨c1, c2⟩ := Delete_congr s
    (sameState_emit w (.stepStarted stage.name ("Deleting unused stemcell '" ++ s.CID ++ "'")))
  obtain ⟨evs, hlog, f1, f2, f3, f4⟩ := Delete_frame s
    (w.emit (.stepStarted stage.name ("Deleting unused stemcell '" ++ s.CID ++ "'")))
  rw [h] at c1
  refine ⟨((s.Delete (w.emit (.stepStarted stage.name
      ("Deleting unused stemcell '" ++ s.CID ++ "'")))).2).emit
      (.stepFinished stage.name ("Deleting unused stemcell '" ++ s.CID ++ "'")),
    [.stepStarted stage.name ("Deleting unused stemcell '" ++ s.CID ++ "'")] ++ evs ++
      [.stepFinished stage.name ("Deleting unused stemcell '" ++ s.CID ++ "'")], ?_, ?_, ?_, ?_⟩
  · simp only [deleteLoop, Stage.PerformStep, deleteStep]
    rcases hd : s.Delete (w.emit (.stepStarted stage.name
      ("Deleting unused stemcell '" ++ s.CID ++ "'"))) with ⟨err, w'⟩
    rw [hd] at c1
    simp only at c1
    subst c1
    rfl
  · exact sameState_trans (sameState_emit _ _) c2
  · simp [emit_log, hlog, List.append_assoc]
  · refine ⟨?_, ?_, ?_, ?_⟩
    · rw [deletedRecords_append, deletedRecords_append, f1]; rfl
    · rw [stepsStarted_append, stepsStarted_append, f2]; rfl
    · rw [saveCalls_append, saveCalls_append, f3]; rfl
    · rw [createCalls_append, createCalls_append, f4]; rfl

/-- One turn of the loop whose `Delete` fails: the loop ends with the wrapped error. -/
theorem deleteLoop_cons_fail (stage : Stage) (s : CloudStemcell S C)
    (rest : List (CloudStemcell S C)) (w : World S C) (e : Error)
    (h : (s.Delete w).1 = some e) :
    (deleteLoop stage (s :: rest) w).1
        = some (WrapError e ("Deleting unused stemcell '" ++ s.CID ++ "'"))
      ∧ sameState (deleteLoop stage (s :: rest) w).2 (s.Delete w).2
      ∧ ∃ evs, (deleteLoop stage (s :: rest) w).2.log = w.log ++ evs ∧ deleteTrace evs [s] := by
  obtain ⟨c1, c2⟩ := Delete_congr s
    (sameState_emit w (.stepStarted stage.name ("Deleting unused stemcell '" ++ s.CID ++ "'")))
  obtain ⟨evs, hlog, f1, f2, f3, f4⟩ := Delete_frame s
    (w.emit (.stepStarted stage.name ("Deleting unused stemcell '" ++ s.CID ++ "'")))
  rw [h] at c1
  have hloop : deleteLoop stage (s :: rest) w =
      (some (WrapError e ("Deleting unused stemcell '" ++ s.CID ++ "'")),
        ((s.Delete (w.emit (.stepStarted stage.name
          ("Deleting unused stemcell '" ++ s.CID ++ "'")))).2).emit
          (.stepFailed stage.name ("Deleting unused stemcell '" ++ s.CID ++ "'")
            ("Deleting unused stemcell '" ++ s.CID ++ "'" ++ ": " ++ e.Error))) := by
    simp only [deleteLoop, Stage.PerformStep, deleteStep]
    rcases hd : s.Delete (w.emit (.stepStarted stage.name
      ("Deleting unused stemcell '" ++ s.CID ++ "'"))) with ⟨err, w'⟩
    rw [hd] at c1
    simp only at c1
    subst c1
    rfl
  rw [hloop]
  refine ⟨rfl, sameState_trans (sameState_emit _ _) c2,
    [.stepStarted stage.name ("Deleting unused stemcell '" ++ s.CID ++ "'")] ++ evs ++
      [.stepFailed stage.name ("Deleting unused stemcell '" ++ s.CID ++ "'")
        ("Deleting unused stemcell '" ++ s.CID ++ "'" ++ ": " ++ e.Error)], ?_, ?_⟩
  · simp [emit_log, hlog, List.append_assoc]
  · refine ⟨?_, ?_, ?_, ?_⟩
    · rw [deletedRecords_append, deletedRecords_append, f1]; rfl
    · rw [stepsStarted_append, stepsStarted_append, f2]; rfl
    · rw [saveCalls_append, saveCalls_append, f3]; rfl
    · rw [createCalls_append, createCalls_append, f4]; rfl

/-- When every `Delete` succeeds the loop runs to its end: one step and one `Delete` per
stemcell, in order, and no error. -/
theorem deleteLoop_all_ok (stage : Stage) (ss : List (CloudStemcell S C)) (w : World S C)
    (h : DeletesSucceed ss w) :
    (deleteLoop stage ss w).1 = none
      ∧ sameState (deleteLoop stage ss w).2 (afterDeletes ss w)
      ∧ ∃ evs, (deleteLoop stage ss w).2.log = w.log ++ evs ∧ deleteTrace evs ss := by
  induction ss generalizing w with
  | nil => exact ⟨rfl, sameState_refl w, [], by simp [deleteLoop], deleteTrace_nil⟩
  | cons s rest ih =>
    obtain ⟨w₁, evs₁, heq, hs, hlog, htr⟩ := deleteLoop_cons_ok stage s rest w h.1
    obtain ⟨i1, i2, evs₂, hlog₂, htr₂⟩ := ih w₁ (DeletesSucceed_congr rest (sameState_symm hs) h.2)
    rw [heq]
    refine ⟨i1, sameState_trans i2 (afterDeletes_congr rest hs), evs₁ ++ evs₂, ?_, ?_⟩
    · rw [hlog₂, hlog, List.append_assoc]
    · exact deleteTrace_append evs₁ evs₂ [s] rest htr htr₂

/-- When `Delete` succeeds on the stemcells of `pre` and fails on the next one, the loop stops
there: one step and one `Delete` for each stemcell of `pre` and for the failing one, none for the
stemcells after it, and the error of the failing `Delete`, wrapped. -/
theorem deleteLoop_first_failure (stage : Stage) (pre : List (CloudStemcell S C))
    (sk : CloudStemcell S C) (post : List (CloudStemcell S C)) (w : World S C) (e : Error)
    (hpre : DeletesSucceed pre w) (hfail : (sk.Delete (afterDeletes pre w)).1 = some e) :
    (deleteLoop stage (pre ++ sk :: post) w).1
        = some (WrapError e ("Deleting unused stemcell '" ++ sk.CID ++ "'"))
      ∧ sameState (deleteLoop stage (pre ++ sk :: post) w).2 (sk.Delete (afterDeletes pre w)).2
      ∧ ∃ evs, (deleteLoop stage (pre ++ sk :: post) w).2.log = w.log ++ evs
          ∧ deleteTrace evs (pre ++ [sk]) := by
  induction pre generalizing w with
  | nil => exact deleteLoop_cons_fail stage sk post w e hfail
  | cons s rest ih =>
    obtain ⟨w₁, evs₁, heq, hs, hlog, htr⟩ :=
      deleteLoop_cons_ok stage s (rest ++ sk :: post) w hpre.1
    have hst : sameState (afterDeletes rest w₁) (afterDeletes rest (s.Delete w).2) :=
      afterDeletes_congr rest hs
    have hfail₁ : (sk.Delete (afterDeletes rest w₁)).1 = some e := by
      rw [(Delete_congr sk hst).1]; exact hfail
    obtain ⟨i1, i2, evs₂, hlog₂, htr₂⟩ :=
      ih w₁ (DeletesSucceed_congr rest (sameState_symm hs) hpre.2) hfail₁
    rw [List.cons_append, heq]
    refine ⟨i1, sameState_trans i2 (Delete_congr sk hst).2, evs₁ ++ evs₂, ?_, ?_⟩
    · rw [hlog₂, hlog, List.append_assoc]
    · exact deleteTrace_append evs₁ evs₂ [s] (rest ++ [sk]) htr htr₂

/-- However the loop ends, the stemcells it invoked `Delete` on are an initial part of its list,
each invoked once and in order. -/
theorem deleteLoop_initial_part (stage : Stage) (ss : List (CloudStemcell S C))
    (w : World S C) :
    ∃ evs done rest, (deleteLoop stage ss w).2.log = w.log ++ evs ∧ ss = done ++ rest
      ∧ deleteTrace evs done := by
  induction ss generalizing w with
  | nil => exact ⟨[], [], [], by simp [deleteLoop], rfl, deleteTrace_nil⟩
  | cons s rest ih =>
    cases hd : (s.Delete w).1 with
    | none =>
      obtain ⟨w₁, evs₁, heq, _, hlog, htr⟩ := deleteLoop_cons_ok stage s rest w hd
      obtain ⟨evs₂, done, rest', hlog₂, hsplit, htr₂⟩ := ih w₁
      rw [heq]
      refine ⟨evs₁ ++ evs₂, s :: done, rest', ?_, by rw [hsplit]; rfl, ?_⟩
      · rw [hlog₂, hlog, List.append_assoc]
      · exact deleteTrace_append evs₁ evs₂ [s] done htr htr₂
    | some e =>
      obtain ⟨_, _, evs, hlog, htr⟩ := deleteLoop_cons_fail stage s rest w e hd
      exact ⟨evs, [s], rest, hlog, rfl, htr⟩

/-- `FindUnused` changes neither the store nor the cloud, performs no step and invokes no
`Delete`; it only reads. -/
theorem FindUnused_frame (m : manager S C) (w : World S C) :
    sameState (m.FindUnused w).2 w
      ∧ ∃ evs, (m.FindUnused w).2.log = w.log ++ evs
          ∧ deleteTrace evs ([] : List (CloudStemcell S C))
          ∧ ∀ ev ∈ evs, ev = .repoAll ∨ ev = .repoFindCurrent := by
  rcases hAll : m.repo.All w.repo with ⟨recs, aerr⟩
  cases aerr with
  | some e =>
    rw [FindUnused_all_fails m w recs e hAll]
    exact ⟨sameState_emit _ _, [.repoAll], rfl, ⟨rfl, rfl, rfl, rfl⟩, by simp⟩
  | none =>
    rcases hCur : m.repo.FindCurrent w.repo with ⟨cur, found, cerr⟩
    cases cerr with
    | some e =>
      rw [FindUnused_current_fails m w recs cur found e hAll hCur]
      exact ⟨⟨rfl, rfl⟩, [.repoAll, .repoFindCurrent], by simp [emit_log],
        ⟨rfl, rfl, rfl, rfl⟩, by simp⟩
    | none =>
      rw [FindUnused_reads_ok m w recs cur found hAll hCur]
      exact ⟨⟨rfl, rfl⟩, [.repoAll, .repoFindCurrent], by simp [emit_log],
        ⟨rfl, rfl, rfl, rfl⟩, by simp⟩

/-- `DeleteUnused` after a successful `FindUnused` is the loop over what it returned. -/
theorem DeleteUnused_eq_loop (m : manager S C) (stage : Stage) (w : World S C)
    (ss : List (CloudStemcell S C)) (h : (m.FindUnused w).1 = (ss, none)) :
    m.DeleteUnused stage w = deleteLoop stage ss (m.FindUnused w).2 := by
  rcases hFU : m.FindUnused w with ⟨⟨ss', err⟩, w'⟩
  rw [hFU] at h
  simp only [Prod.mk.injEq] at h
  obtain ⟨rfl, rfl⟩ := h
  simp [manager.DeleteUnused, hFU]

/-- `DeleteUnused` after a failed `FindUnused` returns the wrapped error at once. -/
theorem DeleteUnused_eq_error (m : manager S C) (stage : Stage) (w : World S C)
    (ss : List (CloudStemcell S C)) (e : Error) (h : (m.FindUnused w).1 = (ss, some e)) :
    m.DeleteUnused stage w
      = (some (WrapError e "Finding unused stemcells"), (m.FindUnused w).2) := by
  rcases hFU : m.FindUnused w with ⟨⟨ss', err⟩, w'⟩
  rw [hFU] at h
  simp only [Prod.mk.injEq] at h
  obtain ⟨rfl, rfl⟩ := h
  simp [manager.DeleteUnused, hFU]

/-- What `FindUnused` computes when both reads succeed and a record is marked current. -/
theorem FindUnused_with_current (m : manager S C) (w : World S C) (recs : List StemcellRecord)
    (cur : StemcellRecord) (hAll : m.repo.All w.repo = (recs, none))
    (hCur : m.repo.FindCurrent w.repo = (cur, true, none)) :
    (m.FindUnused w).1 =
      ((recs.filter fun r => r.ID ≠ cur.ID).map (fun r => NewCloudStemcell r m.repo m.cloud),
        none) := by
  have hfilter : (recs.filter fun r => !true || r.ID != cur.ID)
      = recs.filter fun r => r.ID ≠ cur.ID := by
    congr 1; funext r; simp [bne, BEq.beq]
  rw [FindUnused_reads_ok m w recs cur true hAll hCur, hfilter]

/-! ## DeleteUnused -/

/-- Claim C5. Let `FindUnused` return the stemcells `pre ++ sk :: post`, and let `Delete` succeed
on each stemcell of `pre`, taken in order, and then fail with `e` on `sk`.  Then
`manager.DeleteUnused` performs one step and invokes `Delete` once for each stemcell of `pre` and
for `sk`, in that order, and for no stemcell of `post`; it leaves the store and the cloud as the
deletions of `pre` and the failed deletion of `sk` left them, creating and saving nothing; and it
returns the error `e` wrapped with "Deleting unused stemcell '<cid of sk>'". -/
theorem DeleteUnused_aborts_on_first_failure (m : manager S C) (stage : Stage) (w : World S C)
    (pre : List (CloudStemcell S C)) (sk : CloudStemcell S C) (post : List (CloudStemcell S C))
    (e : Error)
    (hunused : (m.FindUnused w).1 = (pre ++ sk :: post, none))
    (hpre : DeletesSucceed pre w)
    (hfail : (sk.Delete (afterDeletes pre w)).1 = some e) :
    (m.DeleteUnused stage w).1
        = some (WrapError e ("Deleting unused stemcell '" ++ sk.CID ++ "'"))
    ∧ (WrapError e ("Deleting unused stemcell '" ++ sk.CID ++ "'")).Error
        = "Deleting unused stemcell '" ++ sk.CID ++ "'" ++ ": " ++ e.Error
    ∧ (m.DeleteUnused stage w).2.repo = (sk.Delete (afterDeletes pre w)).2.repo
    ∧ (m.DeleteUnused stage w).2.cloud = (sk.Delete (afterDeletes pre w)).2.cloud
    ∧ ∃ evs, (m.DeleteUnused stage w).2.log = w.log ++ evs
        ∧ deletedRecords evs = (pre ++ [sk]).map (·.record)
        ∧ stepsStarted evs
            = (pre ++ [sk]).map (fun s => "Deleting unused stemcell '" ++ s.CID ++ "'")
        ∧ saveCalls evs = []
        ∧ createCalls evs = [] := by
  obtain ⟨hst, evs₀, hlog₀, htr₀, _⟩ := FindUnused_frame m w
  have hst' : sameState (afterDeletes pre (m.FindUnused w).2) (afterDeletes pre w) :=
    afterDeletes_congr pre hst
  have hfail' : (sk.Delete (afterDeletes pre (m.FindUnused w).2)).1 = some e := by
    rw [(Delete_congr sk hst').1]; exact hfail
  obtain ⟨l1, l2, evs, hlog, htr⟩ := deleteLoop_first_failure stage pre sk post
    (m.FindUnused w).2 e (DeletesSucceed_congr pre (sameState_symm hst) hpre) hfail'
  have hfinal := sameState_trans l2 (Delete_congr sk hst').2
  have htotal := deleteTrace_append evs₀ evs [] (pre ++ [sk]) htr₀ htr
  rw [DeleteUnused_eq_loop m stage w _ hunused]
  refine ⟨l1, rfl, hfinal.1, hfinal.2, evs₀ ++ evs, ?_, htotal.1, htotal.2.1, htotal.2.2.1,
    htotal.2.2.2⟩
  rw [hlog, hlog₀, List.append_assoc]

/-- Claim C5 with three unused stemcells, the remote delete of the second of which fails: `Delete`
is invoked on the first and on the second, not on the third, and the error names `cid-b`. -/
theorem DeleteUnused_aborts_on_first_failure_witness :
    (fakeManager.DeleteUnused deleteStage worldSecondFails).1
        = some (.failure "Deleting unused stemcell 'cid-b': stemcell delete failed")
    ∧ ∃ evs, (fakeManager.DeleteUnused deleteStage worldSecondFails).2.log
          = worldSecondFails.log ++ evs
        ∧ deletedRecords evs = [recA, recB] :=
  have h := DeleteUnused_aborts_on_first_failure fakeManager deleteStage worldSecondFails
    [NewCloudStemcell recA fakeRepo fakeCloud] (NewCloudStemcell recB fakeRepo fakeCloud)
    [NewCloudStemcell recC fakeRepo fakeCloud] (.failure "stemcell delete failed")
    rfl ⟨rfl, trivial⟩ rfl
  ⟨h.1, h.2.2.2.2.elim fun evs hevs => ⟨evs, hevs.1, hevs.2.1⟩⟩

/-- Claim C8. In a store state in which the `All` read or the `FindCurrent` read fails,
`manager.DeleteUnused` returns the lookup failure wrapped with the context
"Finding unused stemcells" (around the failure of `All` wrapped with
"Getting all stemcell records", or else around the failure of `FindCurrent` wrapped with
"Finding current disk record"), performs no stage step, invokes `Delete` on no stemcell, makes no
call other than the reads, and leaves the store and the cloud unchanged. -/
theorem DeleteUnused_lookup_failure (m : manager S C) (stage : Stage) (w : World S C)
    (h : (m.repo.All w.repo).2 ≠ none ∨ (m.repo.FindCurrent w.repo).2.2 ≠ none) :
    ∃ cause evs,
      (m.DeleteUnused stage w).1 = some (WrapError cause "Finding unused stemcells")
      ∧ ((∃ e, (m.repo.All w.repo).2 = some e
            ∧ cause = WrapError e "Getting all stemcell records")
          ∨ (∃ e, (m.repo.All w.repo).2 = none ∧ (m.repo.FindCurrent w.repo).2.2 = some e
            ∧ cause = WrapError e "Finding current disk record"))
      ∧ (m.DeleteUnused stage w).2.repo = w.repo
      ∧ (m.DeleteUnused stage w).2.cloud = w.cloud
      ∧ (m.DeleteUnused stage w).2.log = w.log ++ evs
      ∧ stepsStarted evs = []
      ∧ deletedRecords evs = []
      ∧ ∀ ev ∈ evs, ev = .repoAll ∨ ev = .repoFindCurrent := by
  obtain ⟨hst, evs, hlog, htr, hreads⟩ := FindUnused_frame m w
  rcases hAll : m.repo.All w.repo with ⟨recs, aerr⟩
  cases aerr with
  | some e =>
    have hFU := FindUnused_all_fails m w recs e hAll
    rw [DeleteUnused_eq_error m stage w [] _ (by rw [hFU])]
    exact ⟨_, evs, rfl, Or.inl ⟨e, rfl, rfl⟩, hst.1, hst.2, hlog, htr.2.1, htr.1, hreads⟩
  | none =>
    rcases hCur : m.repo.FindCurrent w.repo with ⟨cur, found, cerr⟩
    cases cerr with
    | some e =>
      have hFU := FindUnused_current_fails m w recs cur found e hAll hCur
      rw [DeleteUnused_eq_error m stage w [] _ (by rw [hFU])]
      exact ⟨_, evs, rfl, Or.inr ⟨e, rfl, rfl, rfl⟩, hst.1, hst.2, hlog, htr.2.1, htr.1, hreads⟩
    | none =>
      rw [hAll, hCur] at h
      simp at h

/-- Claim C8 on two in-memory stores, one whose `All` read fails and one whose `FindCurrent` read
fails. -/
theorem DeleteUnused_lookup_failure_witness :
    (∃ cause evs,
      (fakeManager.DeleteUnused deleteStage worldAllFails).1
          = some (WrapError cause "Finding unused stemcells")
      ∧ ((∃ e, (fakeManager.repo.All worldAllFails.repo).2 = some e
            ∧ cause = WrapError e "Getting all stemcell records")
          ∨ (∃ e, (fakeManager.repo.All worldAllFails.repo).2 = none
            ∧ (fakeManager.repo.FindCurrent worldAllFails.repo).2.2 = some e
            ∧ cause = WrapError e "Finding current disk record"))
      ∧ (fakeManager.DeleteUnused deleteStage worldAllFails).2.repo = worldAllFails.repo
      ∧ (fakeManager.DeleteUnused deleteStage worldAllFails).2.cloud = worldAllFails.cloud
      ∧ (fakeManager.DeleteUnused deleteStage worldAllFails).2.log = worldAllFails.log ++ evs
      ∧ stepsStarted evs = []
      ∧ deletedRecords evs = []
      ∧ ∀ ev ∈ evs, ev = .repoAll ∨ ev = .repoFindCurrent)
    ∧ ∃ cause, (fakeManager.DeleteUnused deleteStage worldFindCurrentFails).1
          = some (WrapError cause "Finding unused stemcells") :=
  ⟨DeleteUnused_lookup_failure fakeManager deleteStage worldAllFails (Or.inl (by decide)),
   (DeleteUnused_lookup_failure fakeManager deleteStage worldFindCurrentFails
      (Or.inr (by decide))).elim fun cause hc => hc.elim fun _ hevs => ⟨cause, hevs.1⟩⟩

/-- Claim C10. In a store state with a current record `cur`, `manager.DeleteUnused` invokes
`Delete` on no stemcell built from a record whose ID is the ID of `cur`, however it ends.  When
moreover `All` succeeds with `recs` and `Delete` succeeds on the stemcell of every record of `recs`
with another ID, taken in store order, it performs exactly one step and one `Delete` per such
record, in store order, and returns no error; with no such record it performs no step, invokes no
`Delete` and returns no error. -/
theorem DeleteUnused_spares_current (m : manager S C) (stage : Stage) (w : World S C)
    (cur : StemcellRecord) (hCur : m.repo.FindCurrent w.repo = (cur, true, none)) :
    (∃ evs, (m.DeleteUnused stage w).2.log = w.log ++ evs
        ∧ ∀ r ∈ deletedRecords evs, r.ID ≠ cur.ID)
    ∧ (∀ recs, m.repo.All w.repo = (recs, none) →
        DeletesSucceed ((recs.filter fun r => r.ID ≠ cur.ID).map
          (fun r => NewCloudStemcell r m.repo m.cloud)) w →
        (m.DeleteUnused stage w).1 = none
        ∧ ∃ evs, (m.DeleteUnused stage w).2.log = w.log ++ evs
            ∧ deletedRecords evs = recs.filter (fun r => r.ID ≠ cur.ID)
            ∧ stepsStarted evs = (recs.filter fun r => r.ID ≠ cur.ID).map
                (fun r => "Deleting unused stemcell '" ++ r.CID ++ "'"))
    ∧ (∀ recs, m.repo.All w.repo = (recs, none) → (recs.filter fun r => r.ID ≠ cur.ID) = [] →
        (m.DeleteUnused stage w).1 = none
        ∧ ∃ evs, (m.DeleteUnused stage w).2.log = w.log ++ evs
            ∧ deletedRecords evs = [] ∧ stepsStarted evs = []) := by
  obtain ⟨hst, evs₀, hlog₀, htr₀, _⟩ := FindUnused_frame m w
  have hall_ok : ∀ recs, m.repo.All w.repo = (recs, none) →
      DeletesSucceed ((recs.filter fun r => r.ID ≠ cur.ID).map
        (fun r => NewCloudStemcell r m.repo m.cloud)) w →
      (m.DeleteUnused stage w).1 = none
      ∧ ∃ evs, (m.DeleteUnused stage w).2.log = w.log ++ evs
          ∧ deletedRecords evs = recs.filter (fun r => r.ID ≠ cur.ID)
          ∧ stepsStarted evs = (recs.filter fun r => r.ID ≠ cur.ID).map
              (fun r => "Deleting unused stemcell '" ++ r.CID ++ "'") := by
    intro recs hAll hdel
    have hFU := FindUnused_with_current m w recs cur hAll hCur
    obtain ⟨l1, _, evs, hlog, htr⟩ := deleteLoop_all_ok stage _ (m.FindUnused w).2
      (DeletesSucceed_congr _ (sameState_symm hst) hdel)
    have htotal := deleteTrace_append evs₀ evs [] _ htr₀ htr
    rw [DeleteUnused_eq_loop m stage w _ hFU]
    refine ⟨l1, evs₀ ++ evs, by rw [hlog, hlog₀, List.append_assoc], ?_, ?_⟩
    · rw [htotal.1]
      simp [List.map_map, Function.comp_def, NewCloudStemcell]
    · rw [htotal.2.1]
      simp [List.map_map, Function.comp_def, NewCloudStemcell, deleteStepName,
        CloudStemcell.CID]
  refine ⟨?_, hall_ok, ?_⟩
  · rcases hAll : m.repo.All w.repo with ⟨recs, aerr⟩
    cases aerr with
    | some e =>
      have hFU := FindUnused_all_fails m w recs e hAll
      rw [DeleteUnused_eq_error m stage w [] _ (by rw [hFU])]
      refine ⟨evs₀, hlog₀, ?_⟩
      rw [htr₀.1]
      simp
    | none =>
      have hFU := FindUnused_with_current m w recs cur hAll hCur
      obtain ⟨evs, done, rest, hlog, hsplit, htr⟩ :=
        deleteLoop_initial_part stage
          ((recs.filter fun r => r.ID ≠ cur.ID).map (fun r => NewCloudStemcell r m.repo m.cloud))
          (m.FindUnused w).2
      have htotal := deleteTrace_append evs₀ evs [] done htr₀ htr
      rw [DeleteUnused_eq_loop m stage w _ hFU]
      refine ⟨evs₀ ++ evs, by rw [hlog, hlog₀, List.append_assoc], ?_⟩
      intro r hr
      rw [htotal.1] at hr
      have hmem : r ∈ ((recs.filter fun r => r.ID ≠ cur.ID).map
          (fun r => NewCloudStemcell r m.repo m.cloud)).map (·.record) := by
        rw [hsplit, List.map_append]
        exact List.mem_append_left _ (by simpa using hr)
      simp only [List.map_map, List.mem_map, List.mem_filter, Function.comp_def,
        NewCloudStemcell] at hmem
      obtain ⟨r', ⟨_, hne⟩, rfl⟩ := hmem
      simpa using hne
  · intro recs hAll hnil
    have := hall_ok recs hAll (by rw [hnil]; trivial)
    rw [hnil] at this
    simpa using this

/-- Claim C10 on the in-memory store holding `recA`, `recCur`, `recB` with `recCur` current and
every delete succeeding: `Delete` is invoked on `recA` and `recB`, in that order. -/
theorem DeleteUnused_spares_current_witness :
    (fakeManager.DeleteUnused deleteStage worldWithCurrent).1 = none
    ∧ ∃ evs, (fakeManager.DeleteUnused deleteStage worldWithCurrent).2.log
          = worldWithCurrent.log ++ evs
        ∧ deletedRecords evs = [recA, recCur, recB].filter (fun r => r.ID ≠ recCur.ID)
        ∧ stepsStarted evs = ([recA, recCur, recB].filter fun r => r.ID ≠ recCur.ID).map
            (fun r => "Deleting unused stemcell '" ++ r.CID ++ "'") :=
  (DeleteUnused_spares_current fakeManager deleteStage worldWithCurrent recCur rfl).2.1
    [recA, recCur, recB] rfl ⟨rfl, rfl, trivial⟩

end Stemcell
